import Mathlib

/-!
Verification of the request-classification and dispatch engine of the
bower registry proxy (registry.go).

The Go program registers three goproxy request rules in order:
1. an anonymous handler that, for GET requests whose host is not one of the
   two migrated hosts, answers search traffic with a deprecation JSON body
   and everything else with a throttled (10 s) 308 redirect;
2. a list rule (exact path "/packages") backed by a memcached read;
3. a lookup rule (path prefix "/packages/", excluding "/packages/search/")
   backed by a parameterized SQL query.
goproxy evaluates handlers in registration order and stops at the first
non-nil response; a request no handler answers is delegated to the local
node process.  External effects (the metadata store, the list cache, JSON
marshalling) are modelled as explicit function parameters.
-/

/-- An inbound HTTP request as the Go handlers see it:
`r.Method`, `r.Host`, `r.URL.Path`, `r.URL.RawQuery`. -/
structure Request where
  method : String
  host : String
  path : String
  rawQuery : String
deriving Repr, DecidableEq

/-- A response as produced by `goproxy.NewResponse` plus the headers the
handlers set afterwards.  `delaySeconds` records the `time.Sleep` the
handler performs before responding (0 when it responds immediately). -/
structure Response where
  status : Nat
  contentType : String
  body : String
  headers : List (String × String)
  delaySeconds : Nat
deriving Repr, DecidableEq

/-- `goproxy.NewResponse(r, contentType, status, body)`: a response with the
given content type, status and body, no extra headers, no delay. -/
def newResponse (contentType : String) (status : Nat) (body : String) : Response :=
  { status := status, contentType := contentType, body := body,
    headers := [], delaySeconds := 0 }

/-- `strings.HasPrefix(s, pre)` from the Go standard library. -/
def goHasPref (s pre : String) : Bool :=
  pre.data.isPrefixOf s.data

/-- `strings.Split(l, sep)` for a single-character separator, on the
character list of the string: Go splits on every occurrence of the
separator and keeps empty segments, so the result is always non-empty. -/
def splitChar (sep : Char) : List Char → List (List Char)
  | [] => [[]]
  | c :: cs =>
    if c == sep then [] :: splitChar sep cs
    else
      match splitChar sep cs with
      | [] => [[c]]
      | seg :: segs => (c :: seg) :: segs

/-- `elements := strings.Split(path, "/"); packageName := elements[len(elements)-1]`
from `getPackage` in registry.go. -/
def lastSegment (path : String) : String :=
  String.mk ((splitChar '/' path.data).getLastD [])

/-- The condition built by `urlHasPrefix(prefix)` in registry.go: GET, path
has the given prefix, and path is not under "/packages/search/". -/
def urlHasPref (pre : String) (r : Request) : Bool :=
  let isGET := r.method == "GET"
  let hasPref := goHasPref r.path pre
  let isSearch := goHasPref r.path "/packages/search/"
  isGET && hasPref && !isSearch

/-- The condition built by `pathIs(path)` in registry.go: GET and exact path. -/
def pathIs (path : String) (r : Request) : Bool :=
  r.method == "GET" && r.path == path

/-- The row type scanned from `SELECT name, url FROM packages WHERE name = $1`. -/
structure Package where
  name : String
  url : String
deriving Repr, DecidableEq

/-- Outcome of `pool.QueryRow("getPackage", packageName).Scan(&name, &url)`:
a scanned row, `pgx.ErrNoRows`, or any other error. -/
inductive QueryResult where
  | row (name url : String)
  | noRows
  | failure
deriving Repr, DecidableEq

/-- Outcome of `cn.Get("packages")`: a value, or a non-nil error (the mc
client reports a missing key as an error, so miss and client error are the
same branch in registry.go). -/
inductive CacheResult where
  | hit (val : String)
  | failure
deriving Repr, DecidableEq

/-- Lowercase hexadecimal digit, as used by encoding/json escape sequences. -/
def hexDigit (n : Nat) : Char :=
  if n < 10 then Char.ofNat (48 + n) else Char.ofNat (87 + n)

/-- Escaping of one character by Go encoding/json's string encoder with the
default HTML escaping that `json.Marshal` applies. -/
def goEscapeChar (c : Char) : List Char :=
  if c == '"' then ['\\', '"']
  else if c == '\\' then ['\\', '\\']
  else if c == '\n' then ['\\', 'n']
  else if c == '\r' then ['\\', 'r']
  else if c == '\t' then ['\\', 't']
  else if c.toNat < 32 then
    ['\\', 'u', '0', '0', hexDigit (c.toNat / 16), hexDigit (c.toNat % 16)]
  else if c == '<' then ['\\', 'u', '0', '0', '3', 'c']
  else if c == '>' then ['\\', 'u', '0', '0', '3', 'e']
  else if c == '&' then ['\\', 'u', '0', '0', '2', '6']
  else if c.toNat == 8232 then ['\\', 'u', '2', '0', '2', '8']
  else if c.toNat == 8233 then ['\\', 'u', '2', '0', '2', '9']
  else [c]

/-- A Go JSON string literal: quoted, characters escaped as encoding/json does. -/
def goQuoteString (s : String) : String :=
  "\"" ++ String.join (s.data.map (fun c => String.mk (goEscapeChar c))) ++ "\""

/-- `json.Marshal(Package\x7bName: name, URL: url\x7d)`: the struct has the json
tags `name` and `url`, so the encoding is a two-field JSON object. -/
def marshalPackage (p : Package) : String :=
  "\x7b\"name\":" ++ goQuoteString p.name ++ ",\"url\":" ++ goQuoteString p.url ++ "\x7d"

/-- `json.Marshal` of a slice of `Package` values: a JSON array. -/
def marshalPackageList (ps : List Package) : String :=
  "[" ++ String.intercalate "," (ps.map marshalPackage) ++ "]"

/-- `json.Marshal` on a `Package` as getPackage calls it; for this fixed
struct of two string fields the Go call cannot fail, so the model is total.
Handlers are parameterized over an arbitrary `Package → Option String`
marshaller so that the error branch of getPackage is reachable in the model;
`goMarshal` is the instance matching the real library. -/
def goMarshal (p : Package) : Option String := some (marshalPackage p)

/-- The body literal of the deprecation response in registry.go. -/
def deprecationBody : String :=
  "[\x7b\"name\":\"deprecated\",\"url\":\"This bower version is deprecated. Please update it: npm update -g bower\"\x7d]"

/-- The deprecation message carried in the `url` field of the sentinel record. -/
def deprecationMessage : String :=
  "This bower version is deprecated. Please update it: npm update -g bower"

/-- The `Location` target built by the redirect branch:
`"https://registry.bower.io" + r.URL.Path`, plus `"?" + r.URL.RawQuery`
when `len(r.URL.RawQuery) > 0`. -/
def redirectTarget (r : Request) : String :=
  "https://registry.bower.io" ++ r.path ++
    (if r.rawQuery.length > 0 then "?" ++ r.rawQuery else "")

/-- The first registered rule (the anonymous `DoFunc` in `main`): for GET
requests on a non-migrated host, search traffic gets the immediate
deprecation JSON, everything else sleeps 10 seconds and gets a 308 redirect;
all other requests fall through (`return r, nil`). -/
def migratableHandler (r : Request) : Option Response :=
  if r.method == "GET" && !(r.host == "registry.bower.io")
      && !(r.host == "components.bower.io") then
    if goHasPref r.path "/packages/search/" then
      some (newResponse "application/json" 200 deprecationBody)
    else
      some { newResponse "application/json" 308 "" with
             delaySeconds := 10,
             headers := [("Location", redirectTarget r)] }
  else
    none

/-- The body of `getPackage` after name extraction, i.e. the spec's
`resolvePackage(name)`: query the store, map `pgx.ErrNoRows` to 404, any
other query error to 500, a marshal failure to 500, and a resolved row to a
200 JSON response with the 7-day cache directive. -/
def resolvePackage (store : String → QueryResult)
    (marshal : Package → Option String) (packageName : String) : Response :=
  match store packageName with
  | QueryResult.noRows => newResponse "text/html" 404 "Package not found"
  | QueryResult.failure => newResponse "text/html" 500 "Internal server error"
  | QueryResult.row name url =>
    match marshal { name := name, url := url } with
    | none => newResponse "text/html" 500 "Internal server error"
    | some data =>
      { newResponse "application/json" 200 data with
        headers := [("Cache-Control", "public, max-age=604800")] }

/-- `getPackage` in registry.go: extract the last `/`-separated segment of
the path and resolve it; every branch returns a response. -/
def getPackage (store : String → QueryResult)
    (marshal : Package → Option String) (r : Request) : Option Response :=
  some (resolvePackage store marshal (lastSegment r.path))

/-- `listPackages` in registry.go: read the fixed key `"packages"`; on any
error return `(r, nil)` (no response), on a hit return 200 with the cached
bytes and the 7-day cache directive. -/
def listPackages (cache : String → CacheResult) (r : Request) : Option Response :=
  match cache "packages" with
  | CacheResult.failure => none
  | CacheResult.hit val =>
    some { newResponse "application/json" 200 val with
           headers := [("Cache-Control", "public, max-age=604800")] }

/-- `proxy.OnRequest(cond).DoFunc(h)`: the handler fires only when the
condition holds, otherwise the request falls through with no response. -/
def condFunc (cond : Request → Bool) (h : Request → Option Response)
    (r : Request) : Option Response :=
  if cond r then h r else none

/-- goproxy's `filterRequest` over the three rules registered in `main`, in
registration order, stopping at the first non-nil response.  `none` means no
rule answered and the request is delegated to the local node process. -/
def dispatch (cache : String → CacheResult) (store : String → QueryResult)
    (marshal : Package → Option String) (r : Request) : Option Response :=
  match migratableHandler r with
  | some resp => some resp
  | none =>
    match condFunc (pathIs "/packages") (listPackages cache) r with
    | some resp => some resp
    | none => condFunc (urlHasPref "/packages/") (getPackage store marshal) r

/-- A store with no rows, for concrete instantiations. -/
def storeEmpty : String → QueryResult := fun _ => QueryResult.noRows

/-- A store answering every name with a fixed url, for concrete instantiations. -/
def storeDemo : String → QueryResult :=
  fun n => QueryResult.row n "https://example.com/repo.git"

/-- A store whose every query fails, for concrete instantiations. -/
def storeFail : String → QueryResult := fun _ => QueryResult.failure

/-- A cache whose read fails (miss or client error), for concrete instantiations. -/
def cacheFail : String → CacheResult := fun _ => CacheResult.failure

/-- A cache holding a fixed payload under every key, for concrete instantiations. -/
def cacheDemo : String → CacheResult := fun _ => CacheResult.hit "[]"

/-- Unfolding of `splitChar` on a cons cell. -/
theorem splitChar_cons (sep c : Char) (cs : List Char) :
    splitChar sep (c :: cs) =
      if c == sep then [] :: splitChar sep cs
      else
        match splitChar sep cs with
        | [] => [[c]]
        | seg :: segs => (c :: seg) :: segs := rfl

/-- Splitting never yields an empty list of segments. -/
theorem splitChar_ne_nil (sep : Char) (l : List Char) : splitChar sep l ≠ [] := by
  cases l with
  | nil => simp [splitChar]
  | cons c cs =>
    rw [splitChar_cons]
    by_cases h : (c == sep) = true
    · simp [h]
    · rw [if_neg h]
      cases splitChar sep cs <;> simp

/-- Splitting distributes over an occurrence of the separator. -/
theorem splitChar_append_cons (sep : Char) (x y : List Char) :
    splitChar sep (x ++ sep :: y) = splitChar sep x ++ splitChar sep y := by
  induction x with
  | nil =>
    rw [List.nil_append, splitChar_cons, if_pos (by simp)]
    rfl
  | cons c x ih =>
    rw [List.cons_append, splitChar_cons, splitChar_cons, ih]
    by_cases h : (c == sep) = true
    · rw [if_pos h, if_pos h]
      rfl
    · rw [if_neg h, if_neg h]
      rcases hx : splitChar sep x with _ | ⟨seg, segs⟩
      · exact absurd hx (splitChar_ne_nil sep x)
      · rfl

/-- A list without the separator is one single segment. -/
theorem splitChar_of_not_mem (sep : Char) (l : List Char) (h : sep ∉ l) :
    splitChar sep l = [l] := by
  induction l with
  | nil => rfl
  | cons c cs ih =>
    have hc : ¬(c == sep) = true := by
      simp only [List.mem_cons, not_or] at h
      simp only [beq_iff_eq]
      exact fun e => h.1 e.symm
    have hcs := ih (fun hm => h (List.mem_cons_of_mem c hm))
    rw [splitChar_cons, if_neg hc, hcs]

/-- A path ending in the separator has the empty string as last segment. -/
theorem lastSegment_of_trailing_sep (l : List Char) :
    (splitChar '/' (l ++ ['/'])).getLastD [] = [] := by
  have : l ++ ['/'] = l ++ '/' :: [] := rfl
  rw [this, splitChar_append_cons]
  exact List.getLastD_concat _ _ _

/-- Rebuilding a string from its characters is the identity. -/
theorem string_mk_data (s : String) : String.mk s.data = s := by
  cases s
  rfl

/-- A non-empty string has a non-empty character list. -/
theorem data_ne_nil_of_ne (s : String) (h : s ≠ "") : s.data ≠ [] := by
  intro hd
  apply h
  cases s with
  | mk l => cases hd; rfl

/-- The last path segment is passed through verbatim: appending any
slash-free segment after a slash makes it the extracted name. -/
theorem lastSegment_verbatim (p s : String) (hs : '/' ∉ s.data) :
    lastSegment (p ++ "/" ++ s) = s := by
  have hdata : (p ++ "/" ++ s).data = p.data ++ '/' :: s.data := by
    rw [String.data_append, String.data_append]
    show p.data ++ ['/'] ++ s.data = _
    rw [List.append_assoc]
    rfl
  rw [lastSegment, hdata, splitChar_append_cons, splitChar_of_not_mem _ _ hs,
    List.getLastD_concat, string_mk_data]

/-- The query-string suffix of the redirect target, phrased by emptiness of
the query rather than by its length. -/
theorem rawQuery_suffix (s : String) :
    (if s.length > 0 then "?" ++ s else "") = (if s = "" then "" else "?" ++ s) := by
  by_cases h : s = ""
  · subst h
    rfl
  · rw [if_neg h, if_pos]
    have := data_ne_nil_of_ne s h
    show 0 < s.data.length
    exact List.length_pos.mpr this

example : lastSegment "/packages/a/b/c" = "c" := by decide
example : lastSegment "/packages/foo/" = "" := by decide
example : lastSegment "/packages" = "packages" := by decide
example : goHasPref "/packages/search" "/packages/search/" = false := by decide
example : marshalPackage { name := "deprecated", url := deprecationMessage } =
    "\x7b\"name\":\"deprecated\",\"url\":\"This bower version is deprecated. Please update it: npm update -g bower\"\x7d" := by decide
example :
    dispatch cacheFail storeEmpty goMarshal
      { method := "GET", host := "example.com", path := "/packages", rawQuery := "" } =
    some { newResponse "application/json" 308 "" with
           delaySeconds := 10,
           headers := [("Location", "https://registry.bower.io/packages")] } := by decide

/-- The first rule declines every request on a migrated host. -/
theorem migratableHandler_none_of_migrated (r : Request)
    (hh : r.host = "registry.bower.io" ∨ r.host = "components.bower.io") :
    migratableHandler r = none := by
  have e1 : (("components.bower.io" : String) == "registry.bower.io") = false := by decide
  rcases hh with h | h <;> simp [migratableHandler, h, e1]

/-- On a GET request off the migrated hosts, the first rule fires with the
throttled redirect whenever the path is not search traffic. -/
theorem migratableHandler_redirect (r : Request)
    (hm : r.method = "GET")
    (h1 : r.host ≠ "registry.bower.io") (h2 : r.host ≠ "components.bower.io")
    (hs : goHasPref r.path "/packages/search/" = false) :
    migratableHandler r =
      some { newResponse "application/json" 308 "" with
             delaySeconds := 10, headers := [("Location", redirectTarget r)] } := by
  have hc : (r.method == "GET" && !(r.host == "registry.bower.io")
      && !(r.host == "components.bower.io")) = true := by
    simp [hm, h1, h2]
  simp only [migratableHandler, hc, if_true, hs, Bool.false_eq_true, if_false]

/-- On a GET request off the migrated hosts, the first rule fires with the
immediate deprecation body on search traffic. -/
theorem migratableHandler_search (r : Request)
    (hm : r.method = "GET")
    (h1 : r.host ≠ "registry.bower.io") (h2 : r.host ≠ "components.bower.io")
    (hs : goHasPref r.path "/packages/search/" = true) :
    migratableHandler r = some (newResponse "application/json" 200 deprecationBody) := by
  have hc : (r.method == "GET" && !(r.host == "registry.bower.io")
      && !(r.host == "components.bower.io")) = true := by
    simp [hm, h1, h2]
  simp only [migratableHandler, hc, if_true, hs, if_true]

/-- When the first rule answers, its response is the dispatch result. -/
theorem dispatch_of_migratable (cache : String → CacheResult)
    (store : String → QueryResult) (marshal : Package → Option String)
    (r : Request) (resp : Response) (h : migratableHandler r = some resp) :
    dispatch cache store marshal r = some resp := by
  rw [dispatch, h]

/-- Claim C1: rule precedence is first-match in registration order with the
redirect rule first: for every GET request whose host is neither migrated
host, if the request also matches the list rule (exact path "/packages") or
the lookup rule (prefix "/packages/" outside the search namespace), the
redirect rule's handler produces the dispatched response, a 308 after the
10-second throttle, not the list/lookup handler's 200. -/
theorem claim1_redirect_rule_wins (cache : String → CacheResult)
    (store : String → QueryResult) (marshal : Package → Option String) (r : Request)
    (hm : r.method = "GET")
    (h1 : r.host ≠ "registry.bower.io") (h2 : r.host ≠ "components.bower.io")
    (hmatch : pathIs "/packages" r = true ∨ urlHasPref "/packages/" r = true) :
    ∃ resp, migratableHandler r = some resp ∧
      dispatch cache store marshal r = some resp ∧
      resp.status = 308 ∧ resp.delaySeconds = 10 ∧ resp.status ≠ 200 := by
  have hs : goHasPref r.path "/packages/search/" = false := by
    rcases hmatch with hp | hp
    · have hpath : r.path = "/packages" := by
        simp only [pathIs, Bool.and_eq_true, beq_iff_eq] at hp
        exact hp.2
      rw [hpath]
      decide
    · simp only [urlHasPref, Bool.and_eq_true, Bool.not_eq_true'] at hp
      exact hp.2
  have hred := migratableHandler_redirect r hm h1 h2 hs
  exact ⟨_, hred, dispatch_of_migratable cache store marshal r _ hred, rfl, rfl,
    (by norm_num : (308 : Nat) ≠ 200)⟩

/-- Witness for C1 at a concrete request matching the list rule. -/
theorem claim1_witness :
    ∃ resp, migratableHandler
        { method := "GET", host := "example.com", path := "/packages", rawQuery := "" } = some resp ∧
      dispatch cacheDemo storeDemo goMarshal
        { method := "GET", host := "example.com", path := "/packages", rawQuery := "" } = some resp ∧
      resp.status = 308 ∧ resp.delaySeconds = 10 ∧ resp.status ≠ 200 :=
  claim1_redirect_rule_wins cacheDemo storeDemo goMarshal
    { method := "GET", host := "example.com", path := "/packages", rawQuery := "" }
    rfl (by decide) (by decide) (Or.inl (by decide))

/-- Claim C2: for every request on one of the two migrated hosts, the
redirect/deprecation handler never produces a response, regardless of
method, path, or query; dispatch falls through to the list, lookup, or
delegation stages. -/
theorem claim2_migrated_hosts_skip_redirect (cache : String → CacheResult)
    (store : String → QueryResult) (marshal : Package → Option String) (r : Request)
    (hh : r.host = "registry.bower.io" ∨ r.host = "components.bower.io") :
    migratableHandler r = none ∧
    dispatch cache store marshal r =
      (match condFunc (pathIs "/packages") (listPackages cache) r with
       | some resp => some resp
       | none => condFunc (urlHasPref "/packages/") (getPackage store marshal) r) := by
  have hn := migratableHandler_none_of_migrated r hh
  exact ⟨hn, by rw [dispatch, hn]⟩

/-- Witness for C2 at a concrete non-GET request on a migrated host. -/
theorem claim2_witness :
    migratableHandler
      { method := "POST", host := "components.bower.io", path := "/anything", rawQuery := "a=1" } = none ∧
    dispatch cacheDemo storeDemo goMarshal
      { method := "POST", host := "components.bower.io", path := "/anything", rawQuery := "a=1" } =
      (match condFunc (pathIs "/packages") (listPackages cacheDemo)
          { method := "POST", host := "components.bower.io", path := "/anything", rawQuery := "a=1" } with
       | some resp => some resp
       | none => condFunc (urlHasPref "/packages/") (getPackage storeDemo goMarshal)
          { method := "POST", host := "components.bower.io", path := "/anything", rawQuery := "a=1" }) :=
  claim2_migrated_hosts_skip_redirect cacheDemo storeDemo goMarshal
    { method := "POST", host := "components.bower.io", path := "/anything", rawQuery := "a=1" }
    (Or.inr rfl)

/-- Claim C3: every GET request under "/packages/search/" on a non-migrated
host is answered with status 200 and a JSON array holding exactly one
record whose name is the sentinel "deprecated" and whose url is a non-empty
deprecation message, with no artificial delay. -/
theorem claim3_search_deprecation (cache : String → CacheResult)
    (store : String → QueryResult) (marshal : Package → Option String) (r : Request)
    (hm : r.method = "GET")
    (hs : goHasPref r.path "/packages/search/" = true)
    (h1 : r.host ≠ "registry.bower.io") (h2 : r.host ≠ "components.bower.io") :
    dispatch cache store marshal r =
      some (newResponse "application/json" 200 deprecationBody) ∧
    deprecationBody =
      marshalPackageList [{ name := "deprecated", url := deprecationMessage }] ∧
    deprecationMessage ≠ "" ∧
    (newResponse "application/json" 200 deprecationBody).delaySeconds = 0 := by
  have hdep := migratableHandler_search r hm h1 h2 hs
  exact ⟨dispatch_of_migratable cache store marshal r _ hdep, by decide, by decide, rfl⟩

/-- Witness for C3 at a concrete search request. -/
theorem claim3_witness :
    dispatch cacheFail storeEmpty goMarshal
      { method := "GET", host := "example.com", path := "/packages/search/jquery", rawQuery := "" } =
      some (newResponse "application/json" 200 deprecationBody) ∧
    deprecationBody =
      marshalPackageList [{ name := "deprecated", url := deprecationMessage }] ∧
    deprecationMessage ≠ "" ∧
    (newResponse "application/json" 200 deprecationBody).delaySeconds = 0 :=
  claim3_search_deprecation cacheFail storeEmpty goMarshal
    { method := "GET", host := "example.com", path := "/packages/search/jquery", rawQuery := "" }
    rfl (by decide) (by decide) (by decide)

/-- Claim C4: every GET on a non-migrated host outside "/packages/search/"
is suspended for 10 seconds and then answered 308 with a Location header of
the fixed upstream origin, the original path, and "?" plus the original
query exactly when the query is non-empty. -/
theorem claim4_throttled_redirect (cache : String → CacheResult)
    (store : String → QueryResult) (marshal : Package → Option String) (r : Request)
    (hm : r.method = "GET")
    (h1 : r.host ≠ "registry.bower.io") (h2 : r.host ≠ "components.bower.io")
    (hs : goHasPref r.path "/packages/search/" = false) :
    ∃ resp, dispatch cache store marshal r = some resp ∧
      resp.delaySeconds = 10 ∧ resp.status = 308 ∧
      resp.headers = [("Location",
        "https://registry.bower.io" ++ r.path ++
          (if r.rawQuery = "" then "" else "?" ++ r.rawQuery))] := by
  have hred := migratableHandler_redirect r hm h1 h2 hs
  refine ⟨_, dispatch_of_migratable cache store marshal r _ hred, rfl, rfl, ?_⟩
  show [("Location", redirectTarget r)] = _
  rw [redirectTarget, rawQuery_suffix]

/-- Witness for C4 at a concrete request with a non-empty query. -/
theorem claim4_witness :
    ∃ resp, dispatch cacheDemo storeDemo goMarshal
        { method := "GET", host := "example.com", path := "/stats", rawQuery := "q=1" } = some resp ∧
      resp.delaySeconds = 10 ∧ resp.status = 308 ∧
      resp.headers = [("Location",
        "https://registry.bower.io" ++ "/stats" ++
          (if ("q=1" : String) = "" then "" else "?" ++ "q=1"))] :=
  claim4_throttled_redirect cacheDemo storeDemo goMarshal
    { method := "GET", host := "example.com", path := "/stats", rawQuery := "q=1" }
    rfl (by decide) (by decide) (by decide)

/-- Claim C5: for every package name x stored with url u, resolving x gives
status 200, the JSON object with fields name = x and url = u as body, and
the 7-day public cache directive. -/
theorem claim5_resolve_found (store : String → QueryResult) (x u : String)
    (hstore : store x = QueryResult.row x u) :
    resolvePackage store goMarshal x =
      { status := 200, contentType := "application/json",
        body := marshalPackage { name := x, url := u },
        headers := [("Cache-Control", "public, max-age=604800")],
        delaySeconds := 0 } := by
  rw [resolvePackage, hstore]
  rfl

/-- Witness for C5 at a concrete store and name. -/
theorem claim5_witness :
    resolvePackage storeDemo goMarshal "jquery" =
      { status := 200, contentType := "application/json",
        body := marshalPackage { name := "jquery", url := "https://example.com/repo.git" },
        headers := [("Cache-Control", "public, max-age=604800")],
        delaySeconds := 0 } :=
  claim5_resolve_found storeDemo "jquery" "https://example.com/repo.git" rfl

/-- Claim C6: resolvePackage maps each store outcome to exactly one error
rendering: zero rows to a plain 404 "Package not found", any other query
failure to a plain 500 "Internal server error", and a marshal failure of
the resolved Package to the same generic 500; no upstream error detail
appears in a body. -/
theorem claim6_error_mapping (store : String → QueryResult)
    (marshal : Package → Option String) (x n u : String) :
    (store x = QueryResult.noRows →
      resolvePackage store marshal x = newResponse "text/html" 404 "Package not found") ∧
    (store x = QueryResult.failure →
      resolvePackage store marshal x = newResponse "text/html" 500 "Internal server error") ∧
    (store x = QueryResult.row n u → marshal { name := n, url := u } = none →
      resolvePackage store marshal x = newResponse "text/html" 500 "Internal server error") := by
  refine ⟨fun h => ?_, fun h => ?_, fun h hm => ?_⟩
  · rw [resolvePackage, h]
  · rw [resolvePackage, h]
  · simp only [resolvePackage, h, hm]

/-- Witness for C6: all three error branches at concrete stores. -/
theorem claim6_witness :
    resolvePackage storeEmpty goMarshal "missing" =
      newResponse "text/html" 404 "Package not found" ∧
    resolvePackage storeFail goMarshal "x" =
      newResponse "text/html" 500 "Internal server error" ∧
    resolvePackage storeDemo (fun _ => none) "x" =
      newResponse "text/html" 500 "Internal server error" :=
  ⟨(claim6_error_mapping storeEmpty goMarshal "missing" "" "").1 rfl,
   (claim6_error_mapping storeFail goMarshal "x" "" "").2.1 rfl,
   (claim6_error_mapping storeDemo (fun _ => none) "x" "x" "https://example.com/repo.git").2.2
     rfl rfl⟩

/-- Claim C7: the list handler reads only the fixed cache key "packages";
on a hit it answers 200 with the cached value verbatim and the 7-day cache
directive; on a miss or any cache error it yields no response, and the
dispatch of a list request then falls through to delegation rather than
synthesizing a 500. -/
theorem claim7_list_cache (cache cache2 : String → CacheResult)
    (store : String → QueryResult) (marshal : Package → Option String)
    (r : Request) (v : String) :
    (cache "packages" = cache2 "packages" →
      listPackages cache r = listPackages cache2 r) ∧
    (cache "packages" = CacheResult.hit v →
      listPackages cache r =
        some { newResponse "application/json" 200 v with
               headers := [("Cache-Control", "public, max-age=604800")] }) ∧
    (cache "packages" = CacheResult.failure → listPackages cache r = none) ∧
    (cache "packages" = CacheResult.failure → r.method = "GET" →
      r.path = "/packages" → r.host = "registry.bower.io" →
      dispatch cache store marshal r = none) := by
  refine ⟨fun h => ?_, fun h => ?_, fun h => ?_, fun h hm hp hh => ?_⟩
  · rw [listPackages, listPackages, h]
  · rw [listPackages, h]
  · rw [listPackages, h]
  · have hmig := migratableHandler_none_of_migrated r (Or.inl hh)
    have hlist : listPackages cache r = none := by rw [listPackages, h]
    have hlook : goHasPref r.path "/packages/" = false := by
      rw [hp]
      decide
    rw [dispatch, hmig]
    rw [condFunc, condFunc]
    by_cases hc : pathIs "/packages" r = true
    · rw [if_pos hc, hlist]
      rw [if_neg]
      simp [urlHasPref, hlook]
    · rw [if_neg (by simp [hc]), if_neg]
      simp [urlHasPref, hlook]

/-- Witness for C7: all four conjuncts at concrete caches and a concrete
list request. -/
theorem claim7_witness :
    (cacheFail "packages" = cacheFail "packages" →
      listPackages cacheFail
        { method := "GET", host := "registry.bower.io", path := "/packages", rawQuery := "" } =
      listPackages cacheFail
        { method := "GET", host := "registry.bower.io", path := "/packages", rawQuery := "" }) ∧
    (cacheFail "packages" = CacheResult.hit "[]" →
      listPackages cacheFail
        { method := "GET", host := "registry.bower.io", path := "/packages", rawQuery := "" } =
        some { newResponse "application/json" 200 "[]" with
               headers := [("Cache-Control", "public, max-age=604800")] }) ∧
    (cacheFail "packages" = CacheResult.failure →
      listPackages cacheFail
        { method := "GET", host := "registry.bower.io", path := "/packages", rawQuery := "" } = none) ∧
    (cacheFail "packages" = CacheResult.failure → "GET" = "GET" →
      "/packages" = "/packages" → "registry.bower.io" = "registry.bower.io" →
      dispatch cacheFail storeDemo goMarshal
        { method := "GET", host := "registry.bower.io", path := "/packages", rawQuery := "" } = none) :=
  claim7_list_cache cacheFail cacheFail storeDemo goMarshal
    { method := "GET", host := "registry.bower.io", path := "/packages", rawQuery := "" } "[]"

/-- Claim C8: the package name handed to the store query is the last
"/"-separated segment of the request path, passed through verbatim with no
decoding, validation, or length limit; in particular "/packages/a/b/c"
yields the name "c". -/
theorem claim8_name_extraction (store : String → QueryResult)
    (marshal : Package → Option String) (r : Request)
    (hp : r.path = "/packages/a/b/c") :
    (∀ p s : String, '/' ∉ s.data → lastSegment (p ++ "/" ++ s) = s) ∧
    lastSegment "/packages/a/b/c" = "c" ∧
    getPackage store marshal r = some (resolvePackage store marshal "c") := by
  have hc : lastSegment "/packages/a/b/c" = "c" := by decide
  refine ⟨lastSegment_verbatim, hc, ?_⟩
  rw [getPackage, hp, hc]

/-- Witness for C8 at a concrete lookup request. -/
theorem claim8_witness :
    (∀ p s : String, '/' ∉ s.data → lastSegment (p ++ "/" ++ s) = s) ∧
    lastSegment "/packages/a/b/c" = "c" ∧
    getPackage storeDemo goMarshal
      { method := "GET", host := "registry.bower.io", path := "/packages/a/b/c", rawQuery := "" } =
      some (resolvePackage storeDemo goMarshal "c") :=
  claim8_name_extraction storeDemo goMarshal
    { method := "GET", host := "registry.bower.io", path := "/packages/a/b/c", rawQuery := "" }
    rfl

/-- Counterexample to C9 as stated: the GET request for "/packages/search/"
on the migrated host "registry.bower.io" has a path that starts with
"/packages/" and ends with "/", yet the lookup rule does not match (the
search sub-namespace is excluded) and dispatch yields no response at all,
so no store query is reached through the lookup handler. -/
theorem claim9_counterexample :
    (Request.mk "GET" "registry.bower.io" "/packages/search/" "").method = "GET" ∧
    (Request.mk "GET" "registry.bower.io" "/packages/search/" "").host = "registry.bower.io" ∧
    goHasPref "/packages/search/" "/packages/" = true ∧
    ("/packages/search/" : String).data.getLast? = some '/' ∧
    urlHasPref "/packages/" (Request.mk "GET" "registry.bower.io" "/packages/search/" "") = false ∧
    dispatch cacheFail storeEmpty goMarshal
      (Request.mk "GET" "registry.bower.io" "/packages/search/" "") = none := by
  decide

/-- Claim C9 (amended): for every GET request on a migrated host whose path
starts with "/packages/", does not start with "/packages/search/", and ends
with "/", the lookup rule matches, the extracted package name is the empty
string, and dispatch resolves that empty name against the store. -/
theorem claim9_amended_trailing_slash (cache : String → CacheResult)
    (store : String → QueryResult) (marshal : Package → Option String) (r : Request)
    (hm : r.method = "GET")
    (hh : r.host = "registry.bower.io" ∨ r.host = "components.bower.io")
    (hpre : goHasPref r.path "/packages/" = true)
    (hns : goHasPref r.path "/packages/search/" = false)
    (hend : ∃ l, r.path.data = l ++ ['/']) :
    urlHasPref "/packages/" r = true ∧
    lastSegment r.path = "" ∧
    dispatch cache store marshal r = some (resolvePackage store marshal "") := by
  obtain ⟨l, hl⟩ := hend
  have hurl : urlHasPref "/packages/" r = true := by
    simp [urlHasPref, hm, hpre, hns]
  have hlast : lastSegment r.path = "" := by
    rw [lastSegment, hl, lastSegment_of_trailing_sep]
  have hlastq : ("/packages" : String) ≠ r.path := by
    intro e
    rw [← e] at hl
    have h1 : (("/packages" : String).data.getLast?) = some 's' := by decide
    rw [hl] at h1
    simp [List.getLast?_concat] at h1
  have hmig := migratableHandler_none_of_migrated r hh
  have hpathIs : pathIs "/packages" r = false := by
    rw [pathIs]
    have hb : (r.path == "/packages") = false := by
      rw [beq_eq_false_iff_ne]
      exact fun e => hlastq e.symm
    rw [hb, Bool.and_false]
  refine ⟨hurl, hlast, ?_⟩
  rw [dispatch, hmig, condFunc, if_neg (by simp [hpathIs]), condFunc, if_pos hurl,
    getPackage, hlast]

/-- Witness for the amended C9 at the request "/packages/foo/". -/
theorem claim9_amended_witness :
    urlHasPref "/packages/"
      (Request.mk "GET" "components.bower.io" "/packages/foo/" "") = true ∧
    lastSegment "/packages/foo/" = "" ∧
    dispatch cacheDemo storeEmpty goMarshal
      (Request.mk "GET" "components.bower.io" "/packages/foo/" "") =
      some (resolvePackage storeEmpty goMarshal "") :=
  claim9_amended_trailing_slash cacheDemo storeEmpty goMarshal
    (Request.mk "GET" "components.bower.io" "/packages/foo/" "")
    rfl (Or.inr rfl) (by decide) (by decide)
    ⟨("/packages/foo" : String).data, by decide⟩

/-- Claim C10: the search exclusion tests the prefix with its trailing
slash, so the exact path "/packages/search" is not search traffic: on a
migrated host a GET for it resolves the package named "search" against the
store, and on a non-migrated host it receives the throttled 308 redirect
rather than the deprecation JSON. -/
theorem claim10_search_without_slash (cache : String → CacheResult)
    (store : String → QueryResult) (marshal : Package → Option String)
    (hostM hostN q : String)
    (hM : hostM = "registry.bower.io" ∨ hostM = "components.bower.io")
    (hN1 : hostN ≠ "registry.bower.io") (hN2 : hostN ≠ "components.bower.io") :
    goHasPref "/packages/search" "/packages/search/" = false ∧
    dispatch cache store marshal (Request.mk "GET" hostM "/packages/search" q) =
      some (resolvePackage store marshal "search") ∧
    (∃ resp, dispatch cache store marshal (Request.mk "GET" hostN "/packages/search" q) =
        some resp ∧ resp.status = 308 ∧ resp.delaySeconds = 10 ∧
        resp.body ≠ deprecationBody) := by
  refine ⟨by decide, ?_, ?_⟩
  · have hmig := migratableHandler_none_of_migrated
      (Request.mk "GET" hostM "/packages/search" q) hM
    rw [dispatch, hmig]
    have hpi : pathIs "/packages" (Request.mk "GET" hostM "/packages/search" q) = false := rfl
    have hup : urlHasPref "/packages/" (Request.mk "GET" hostM "/packages/search" q) = true := rfl
    rw [condFunc, if_neg (by simp [hpi]), condFunc, if_pos hup, getPackage]
    have hls : lastSegment "/packages/search" = "search" := by decide
    rw [show (Request.mk "GET" hostM "/packages/search" q).path = "/packages/search" from rfl,
      hls]
  · have hred := migratableHandler_redirect
      (Request.mk "GET" hostN "/packages/search" q) rfl hN1 hN2 rfl
    refine ⟨_, dispatch_of_migratable cache store marshal _ _ hred, rfl, rfl, ?_⟩
    show ("" : String) ≠ deprecationBody
    decide

/-- Witness for C10 at concrete hosts and an empty query. -/
theorem claim10_witness :
    goHasPref "/packages/search" "/packages/search/" = false ∧
    dispatch cacheDemo storeDemo goMarshal
      (Request.mk "GET" "registry.bower.io" "/packages/search" "") =
      some (resolvePackage storeDemo goMarshal "search") ∧
    (∃ resp, dispatch cacheDemo storeDemo goMarshal
        (Request.mk "GET" "example.com" "/packages/search" "") =
        some resp ∧ resp.status = 308 ∧ resp.delaySeconds = 10 ∧
        resp.body ≠ deprecationBody) :=
  claim10_search_without_slash cacheDemo storeDemo goMarshal
    "registry.bower.io" "example.com" ""
    (Or.inl rfl) (by decide) (by decide)
